import Mathlib

/-!
Shallow embedding of the PStats server-side client-data core
(src/pandatool/src/pstatserver/pStatClientData.cxx and the Frame Store
interface of pStatThreadData.h), together with theorems checking the
natural-language specification against it.

Machine integers (`int` indices) are modelled as `Int`; the C++
`std::vector`/`pvector` backing tables are modelled as Lean lists with
explicit index arithmetic.  The signed-to-unsigned conversion in the C++
grow loops (`while (_collectors.size() <= def->_index)`) is modelled
explicitly: a negative index converted to `size_t` exceeds every table
size, so the loop never ends; that pathological path is represented by a
distinguished `ub` result.
-/

/-- `PStatCollectorDef` (declared in pStatCollectorDef.h, not under src/;
the fields `_index`, `_name`, `_parent_index` are exactly those the
sources read and write). -/
structure PStatCollectorDef where
  _index : Int
  _name : String
  _parent_index : Int
deriving DecidableEq

/-- One entry of `PStatClientData::_threads`: a thread name plus the
owned `PStatThreadData` pointer.  The pointer is modelled as an optional
token (`none` = null pointer, `some k` = the store allocated as the
`k`-th `new PStatThreadData`), which keeps object identity observable. -/
structure ThreadEntry where
  _name : String
  _data : Option Nat
deriving DecidableEq

/-- The `PStatClientData` object: liveness flag, reader pointer
(`none` = released), the sparse collector table and the thread table.
`readerClosed` counts the `_reader->close()` calls actually performed,
and `nextData` supplies fresh tokens for `new PStatThreadData`. -/
structure PStatClientData where
  _is_alive : Bool
  _reader : Option Unit
  readerClosed : Nat
  _collectors : List (Option PStatCollectorDef)
  _threads : List ThreadEntry
  nextData : Nat
deriving DecidableEq

/-- `vec[i]` with a default for an out-of-range index (the C++ code
always guards the range before indexing; the default never matters on
the in-range paths). -/
def nthD {α : Type} : List α → Nat → α → α
  | [], _, d => d
  | a :: _, 0, _ => a
  | _ :: l, n + 1, d => nthD l n d

/-- The C++ grow loop `while (v.size() <= n) v.push_back(pad);` for a
non-negative index `n`: pad the list with copies of `pad` until its
length exceeds `n`. -/
def growTo {α : Type} (l : List α) (n : Nat) (pad : α) : List α :=
  l ++ List.replicate (n + 1 - l.length) pad

/-- `PStatClientData::_null_collector`, the sentinel returned for
lookups of undefined collectors.  The two-argument constructor
`PStatCollectorDef(-1, "Unknown")` lives outside src/; its parent field
is modelled from the spec: the sentinel parent resolves to itself,
id -1. -/
def _null_collector : PStatCollectorDef :=
  { _index := -1, _name := "Unknown", _parent_index := -1 }

/-- `PStatClientData::is_alive`. -/
def is_alive (s : PStatClientData) : Bool :=
  s._is_alive

/-- `PStatClientData::close`: if alive and the reader is non-null,
close and release the reader and clear the flag; otherwise do
nothing. -/
def close (s : PStatClientData) : PStatClientData :=
  if s._is_alive = true ∧ s._reader.isSome = true then
    { s with _reader := none, _is_alive := false,
             readerClosed := s.readerClosed + 1 }
  else s

/-- `PStatClientData::get_num_collectors`. -/
def get_num_collectors (s : PStatClientData) : Int :=
  (s._collectors.length : Int)

/-- The slot `_collectors[index]` guarded by the range checks of
`has_collector`: `none` when the index is negative, past the allocated
table, or holds a null pointer. -/
def collector_slot (s : PStatClientData) (index : Int) : Option PStatCollectorDef :=
  if 0 ≤ index ∧ index < (s._collectors.length : Int) then
    nthD s._collectors index.toNat none
  else none

/-- `PStatClientData::has_collector`. -/
def has_collector (s : PStatClientData) (index : Int) : Bool :=
  (collector_slot s index).isSome

/-- `PStatClientData::get_collector_def`: the stored definition, or the
`_null_collector` sentinel when undefined. -/
def get_collector_def (s : PStatClientData) (index : Int) : PStatCollectorDef :=
  (collector_slot s index).getD _null_collector

/-- `PStatClientData::get_collector_name`. -/
def get_collector_name (s : PStatClientData) (index : Int) : String :=
  if has_collector s index = false then "Unknown"
  else (get_collector_def s index)._name

/-- `PStatClientData::get_collector_fullname`, fuel-indexed: the C++
function recurses on `_parent_index`, which terminates only when the
defined parent links are acyclic, so the embedding makes the recursion
depth explicit (`none` = fuel exhausted, i.e. the C++ call would still
be recursing after that many nested calls). -/
def fullnameF (s : PStatClientData) : Nat → Int → Option String
  | 0, _ => none
  | fuel + 1, index =>
    if has_collector s index = false then some "Unknown"
    else
      let d := get_collector_def s index
      if d._parent_index = 0 then some d._name
      else (fullnameF s fuel d._parent_index).map (fun p => p ++ ":" ++ d._name)

/-- `get_collector_fullname` at the canonical fuel: on any registry
whose defined parent links are acyclic, a chain of recursive calls
visits pairwise distinct defined collectors, of which there are at most
`_collectors.length`, so `length + 1` nested calls always suffice. -/
def get_collector_fullname (s : PStatClientData) (index : Int) : Option String :=
  fullnameF s (s._collectors.length + 1) index

/-- `PStatClientData::get_num_threads`. -/
def get_num_threads (s : PStatClientData) : Int :=
  (s._threads.length : Int)

/-- The entry `_threads[index]`, defaulting to a blank entry (empty
name, null data pointer) outside the allocated range — exactly what a
freshly grown slot holds. -/
def thread_slot (s : PStatClientData) (index : Int) : ThreadEntry :=
  if 0 ≤ index ∧ index < (s._threads.length : Int) then
    nthD s._threads index.toNat { _name := "", _data := none }
  else { _name := "", _data := none }

/-- `PStatClientData::has_thread`: in range and with a non-empty
name. -/
def has_thread (s : PStatClientData) (index : Int) : Bool :=
  if 0 ≤ index ∧ index < (s._threads.length : Int) then
    !(nthD s._threads index.toNat { _name := "", _data := none })._name.isEmpty
  else false

/-- `PStatClientData::get_thread_name`. -/
def get_thread_name (s : PStatClientData) (index : Int) : String :=
  if has_thread s index = false then "Unknown"
  else (nthD s._threads index.toNat { _name := "", _data := none })._name

/-- Result of a mutating call guarded by an `nassert` sanity check:
`ok` (check passed, mutation performed), `rejected` (check failed, the
mutation is refused and the carried state is untouched — the spec's
`ValidationError`), or `ub` (the C++ enters the grow loop with a
negative index, whose `size_t` conversion makes the loop unbounded). -/
inductive MutResult where
  | ok (s : PStatClientData)
  | rejected (s : PStatClientData)
  | ub
deriving DecidableEq

/-- `PStatClientData::add_collector`.  The sanity check is exactly
`def->_index < 1000`; an index ≥ 1000 is rejected with the table
untouched, a negative index passes the check and reaches the grow loop
`while (_collectors.size() <= def->_index)`, where the signed index is
converted to `size_t` and the loop never terminates (`ub`). -/
def add_collector (s : PStatClientData) (d : PStatCollectorDef) : MutResult :=
  if ¬ d._index < 1000 then .rejected s
  else if d._index < 0 then .ub
  else
    let n := d._index.toNat
    let grown := growTo s._collectors n none
    .ok { s with _collectors := grown.set n (some d) }

/-- `PStatClientData::define_thread`.  Same guard shape as
`add_collector` (`thread_index < 1000`, negative indices reach the
unbounded grow loop); on the `ok` path the table is grown with blank
entries, a non-empty `name` overwrites the stored name, an empty one
leaves it alone, and a null `_data` pointer is replaced by a freshly
allocated `PStatThreadData` (a fresh token). -/
def define_thread (s : PStatClientData) (thread_index : Int) (name : String) : MutResult :=
  if ¬ thread_index < 1000 then .rejected s
  else if thread_index < 0 then .ub
  else
    let n := thread_index.toNat
    let grown := growTo s._threads n { _name := "", _data := none }
    let t0 := nthD grown n { _name := "", _data := none }
    let t1 := if name.isEmpty then t0 else { t0 with _name := name }
    if t1._data = none then
      .ok { s with _threads := grown.set n { t1 with _data := some s.nextData },
                   nextData := s.nextData + 1 }
    else
      .ok { s with _threads := grown.set n t1 }

/-- `PStatClientData::get_thread_data`: `define_thread(index)` (empty
name) then, behind an `nassertr` range check, return
`_threads[index]._data`.  The returned pair is the state after the
implicit definition plus the data pointer handed back (`none` both for
the failed `nassertr` and for a null pointer); `none` overall is the
unbounded-loop path of a negative index. -/
def get_thread_data (s : PStatClientData) (index : Int) :
    Option (PStatClientData × Option Nat) :=
  match define_thread s index "" with
  | .ok s1 =>
    if 0 ≤ index ∧ index < (s1._threads.length : Int) then
      some (s1, (nthD s1._threads index.toNat { _name := "", _data := none })._data)
    else some (s1, none)
  | .rejected s1 => some (s1, none)
  | .ub => none

/-- `PStatClientData::get_child_distance`, fuel-indexed like
`fullnameF` (the C++ recursion on `_parent_index` terminates only on
acyclic parent links). -/
def childDistF (s : PStatClientData) : Nat → Int → Int → Option Int
  | 0, _, _ => none
  | fuel + 1, parent, child =>
    if parent = child then some 0
    else if has_collector s child = false ∨ child = 0 then some (-1)
    else
      match childDistF s fuel parent (get_collector_def s child)._parent_index with
      | none => none
      | some dist => if dist = -1 then some (-1) else some (dist + 1)

/-- `get_child_distance` at the canonical fuel (see
`get_collector_fullname`). -/
def get_child_distance (s : PStatClientData) (parent child : Int) : Option Int :=
  childDistF s (s._collectors.length + 1) parent child

/-- `PStatClientData::record_new_frame`: `define_thread(thread_index)`
then, behind an `nassertv` range check, hand the frame to the thread's
store.  The store-internal append (`PStatThreadData::record_new_frame`)
is implemented outside src/ and does not touch the thread table, so at
this layer the effect is the implicit thread definition. -/
def record_new_frame (s : PStatClientData) (thread_index frame_number : Int) :
    Option PStatClientData :=
  match define_thread s thread_index "" with
  | .ok s1 => some s1
  | .rejected s1 => some s1
  | .ub => none

/-! ### Basic list lemmas for the table embedding -/

theorem nthD_ge {α : Type} (l : List α) (n : Nat) (d : α) (h : l.length ≤ n) :
    nthD l n d = d := by
  induction l generalizing n with
  | nil => cases n <;> rfl
  | cons x xs ih =>
    cases n with
    | zero => simp at h
    | succ m => exact ih m (by simpa using h)

theorem nthD_append_lt {α : Type} (l l2 : List α) (n : Nat) (d : α)
    (h : n < l.length) : nthD (l ++ l2) n d = nthD l n d := by
  induction l generalizing n with
  | nil => simp at h
  | cons x xs ih =>
    cases n with
    | zero => rfl
    | succ m => exact ih m (by simpa using h)

theorem nthD_append_ge {α : Type} (l l2 : List α) (n : Nat) (d : α)
    (h : l.length ≤ n) : nthD (l ++ l2) n d = nthD l2 (n - l.length) d := by
  induction l generalizing n with
  | nil => simp [nthD]
  | cons x xs ih =>
    cases n with
    | zero => simp at h
    | succ m => simpa using ih m (by simpa using h)

theorem nthD_replicate {α : Type} (k n : Nat) (a : α) :
    nthD (List.replicate k a) n a = a := by
  induction k generalizing n with
  | zero => cases n <;> rfl
  | succ m ih =>
    cases n with
    | zero => rfl
    | succ j => simpa [List.replicate] using ih j

theorem nthD_set_self {α : Type} (l : List α) (n : Nat) (a d : α)
    (h : n < l.length) : nthD (l.set n a) n d = a := by
  induction l generalizing n with
  | nil => simp at h
  | cons x xs ih =>
    cases n with
    | zero => rfl
    | succ m => exact ih m (by simpa using h)

theorem length_growTo {α : Type} (l : List α) (n : Nat) (pad : α) :
    (growTo l n pad).length = max l.length (n + 1) := by
  simp [growTo]
  omega

theorem lt_length_growTo {α : Type} (l : List α) (n : Nat) (pad : α) :
    n < (growTo l n pad).length := by
  rw [length_growTo]
  omega

theorem nthD_growTo_self {α : Type} (l : List α) (n : Nat) (pad : α) :
    nthD (growTo l n pad) n pad = if n < l.length then nthD l n pad else pad := by
  by_cases h : n < l.length
  · rw [if_pos h]
    exact nthD_append_lt l _ n pad h
  · rw [if_neg h]
    rw [growTo, nthD_append_ge l _ n pad (by omega)]
    exact nthD_replicate _ _ pad

/-! ### Sample states used in concrete checks -/

/-- A freshly constructed `PStatClientData` (live, reader attached,
empty tables). -/
def emptyData : PStatClientData :=
  { _is_alive := true, _reader := some (), readerClosed := 0,
    _collectors := [], _threads := [], nextData := 0 }

/-- A three-level collector chain: `A` at index 0 (the root slot),
`B` with parent 0, `C` with parent `B`. -/
def chainS : PStatClientData :=
  { emptyData with _collectors :=
      [some { _index := 0, _name := "A", _parent_index := 0 },
       some { _index := 1, _name := "B", _parent_index := 0 },
       some { _index := 2, _name := "C", _parent_index := 1 }] }

/-- A registry whose collector 2 names the undefined parent 5: the
ancestor chain is malformed but lookups degrade to the sentinel. -/
def brokenS : PStatClientData :=
  { emptyData with _collectors :=
      [some { _index := 0, _name := "A", _parent_index := 0 },
       none,
       some { _index := 2, _name := "C", _parent_index := 5 }] }

/-! ### Claims -/

/-- **C2.** For every integer id — negative, past the allocated table,
or with an undefined slot — `get_collector_def` returns the sentinel
`_null_collector` (id -1, name "Unknown"), `get_collector_name` returns
"Unknown" and `has_collector` returns `false`; for every defined id the
stored definition is returned and `has_collector` is `true`. -/
theorem c2_collector_lookup_sentinel (s : PStatClientData) (index : Int) :
    (collector_slot s index = none →
      has_collector s index = false ∧
      get_collector_def s index = _null_collector ∧
      get_collector_name s index = "Unknown") ∧
    (∀ d, collector_slot s index = some d →
      has_collector s index = true ∧
      get_collector_def s index = d ∧
      get_collector_name s index = d._name) ∧
    (index < 0 → collector_slot s index = none) ∧
    ((s._collectors.length : Int) ≤ index → collector_slot s index = none) := by
  refine ⟨?_, ?_, ?_, ?_⟩
  · intro h
    refine ⟨?_, ?_, ?_⟩
    · simp [has_collector, h]
    · simp [get_collector_def, h]
    · simp [get_collector_name, has_collector, h]
  · intro d h
    refine ⟨?_, ?_, ?_⟩
    · simp [has_collector, h]
    · simp [get_collector_def, h]
    · simp [get_collector_name, has_collector, get_collector_def, h]
  · intro h
    unfold collector_slot
    rw [if_neg]
    omega
  · intro h
    unfold collector_slot
    rw [if_neg]
    omega

/-- Witness for C2 on concrete inputs: index -3 and index 7 are
undefined in `chainS` and hit the sentinel; index 1 is defined and its
stored definition is returned. -/
theorem c2_collector_lookup_sentinel_witness :
    (has_collector chainS (-3) = false ∧
      get_collector_def chainS (-3) = _null_collector ∧
      get_collector_name chainS (-3) = "Unknown") ∧
    (has_collector chainS 7 = false ∧
      get_collector_name chainS 7 = "Unknown") ∧
    (has_collector chainS 1 = true ∧
      get_collector_name chainS 1 = "B") := by
  have hneg := c2_collector_lookup_sentinel chainS (-3)
  have hbig := c2_collector_lookup_sentinel chainS 7
  have hdef := c2_collector_lookup_sentinel chainS 1
  refine ⟨hneg.1 (hneg.2.2.1 (by decide)), ?_, ?_⟩
  · have h := hbig.1 (hbig.2.2.2 (by decide))
    exact ⟨h.1, h.2.2⟩
  · have h := hdef.2.1 { _index := 1, _name := "B", _parent_index := 0 } (by decide)
    exact ⟨h.1, by rw [h.2.2]⟩

/-- One-step unfolding of `fullnameF` at positive fuel. -/
theorem fullnameF_succ (s : PStatClientData) (fuel : Nat) (index : Int) :
    fullnameF s (fuel + 1) index =
      if has_collector s index = false then some "Unknown"
      else if (get_collector_def s index)._parent_index = 0 then
        some (get_collector_def s index)._name
      else (fullnameF s fuel (get_collector_def s index)._parent_index).map
        (fun p => p ++ ":" ++ (get_collector_def s index)._name) := rfl

/-- One-step unfolding of `childDistF` at positive fuel. -/
theorem childDistF_succ (s : PStatClientData) (fuel : Nat) (parent child : Int) :
    childDistF s (fuel + 1) parent child =
      if parent = child then some 0
      else if has_collector s child = false ∨ child = 0 then some (-1)
      else
        match childDistF s fuel parent (get_collector_def s child)._parent_index with
        | none => none
        | some dist => if dist = -1 then some (-1) else some (dist + 1) := rfl

/-- **C3.** `get_child_distance` returns 0 when the two ids coincide
(defined or not); returns -1 when they differ and the child is
undefined or is the root id 0; and otherwise steps to the child's
parent, propagating -1 and adding one hop to a successful distance.
The concrete conjuncts count the hops on the `A -> B -> C` chain. -/
theorem c3_child_distance_recursion (s : PStatClientData) (fuel : Nat)
    (parent child : Int) :
    (parent = child → childDistF s (fuel + 1) parent child = some 0) ∧
    (parent ≠ child → (has_collector s child = false ∨ child = 0) →
      childDistF s (fuel + 1) parent child = some (-1)) ∧
    (parent ≠ child → has_collector s child = true → child ≠ 0 →
      childDistF s (fuel + 1) parent child =
        (childDistF s fuel parent (get_collector_def s child)._parent_index).map
          (fun dist => if dist = -1 then -1 else dist + 1)) ∧
    get_child_distance chainS 1 2 = some 1 ∧
    get_child_distance chainS 0 2 = some 2 ∧
    get_child_distance chainS 1 0 = some (-1) ∧
    get_child_distance chainS 9 9 = some 0 := by
  refine ⟨?_, ?_, ?_, by decide, by decide, by decide, by decide⟩
  · intro h
    simp [childDistF, h]
  · intro hne hstop
    unfold childDistF
    rw [if_neg hne, if_pos ?_]
    rcases hstop with h | h
    · exact Or.inl h
    · exact Or.inr h
  · intro hne hc h0
    rw [childDistF_succ, if_neg hne, if_neg (by simp [hc, h0])]
    cases hrec : childDistF s fuel parent (get_collector_def s child)._parent_index with
    | none => simp
    | some dist =>
      by_cases hd : dist = -1 <;> simp [hd]

/-- Witness for C3: the three general cases instantiated on `chainS`
(equal ids 2 and 2; undefined child 7; one recursive step from child 2
to its parent 1). -/
theorem c3_child_distance_recursion_witness :
    childDistF chainS 4 2 2 = some 0 ∧
    childDistF chainS 4 1 7 = some (-1) ∧
    childDistF chainS 4 0 2 =
      (childDistF chainS 3 0 (get_collector_def chainS 2)._parent_index).map
        (fun dist => if dist = -1 then -1 else dist + 1) := by
  refine ⟨(c3_child_distance_recursion chainS 3 2 2).1 rfl,
    (c3_child_distance_recursion chainS 3 1 7).2.1 (by decide) (Or.inl (by decide)),
    (c3_child_distance_recursion chainS 3 0 2).2.2.1 (by decide) (by decide) (by decide)⟩

/-- **C4.** For every defined collector id, `get_collector_fullname`
returns the bare name when the stored parent id is 0, and otherwise the
parent's fullname followed by ":" and the collector's own name; on the
chain `A(id 0) -> B -> C` it returns "B:C" for `C` (the root slot's own
name excluded) and "B" for `B`. -/
theorem c4_fullname_recursion (s : PStatClientData) (fuel : Nat) (index : Int) :
    (has_collector s index = true →
      ((get_collector_def s index)._parent_index = 0 →
        fullnameF s (fuel + 1) index = some (get_collector_def s index)._name) ∧
      ((get_collector_def s index)._parent_index ≠ 0 →
        fullnameF s (fuel + 1) index =
          (fullnameF s fuel (get_collector_def s index)._parent_index).map
            (fun p => p ++ ":" ++ (get_collector_def s index)._name))) ∧
    get_collector_fullname chainS 2 = some "B:C" ∧
    get_collector_fullname chainS 1 = some "B" := by
  refine ⟨?_, by decide, by decide⟩
  intro hc
  constructor
  · intro hp
    rw [fullnameF_succ, if_neg (by simp [hc]), if_pos hp]
  · intro hp
    rw [fullnameF_succ, if_neg (by simp [hc]), if_neg hp]

/-- Witness for C4: both shapes of the recursion instantiated on
`chainS` (collector 1 has parent 0, collector 2 has parent 1). -/
theorem c4_fullname_recursion_witness :
    fullnameF chainS 3 1 = some (get_collector_def chainS 1)._name ∧
    fullnameF chainS 3 2 =
      (fullnameF chainS 2 (get_collector_def chainS 2)._parent_index).map
        (fun p => p ++ ":" ++ (get_collector_def chainS 2)._name) := by
  exact ⟨((c4_fullname_recursion chainS 2 1).1 (by decide)).1 (by decide),
    ((c4_fullname_recursion chainS 2 2).1 (by decide)).2 (by decide)⟩

/-- **C5.** `get_collector_fullname` terminates on every input id for
every registry state whose defined parent links are acyclic (witnessed
by a rank function that strictly decreases along defined non-root
parent links): some finite recursion depth returns a value.  The
concrete conjunct shows the malformed chain of `brokenS` (collector 2
names the undefined parent 5) terminating through the sentinel with
"Unknown". -/
theorem c5_fullname_terminates (s : PStatClientData) (rank : Int → Nat)
    (hacyc : ∀ i, has_collector s i = true →
      (get_collector_def s i)._parent_index ≠ 0 →
      rank (get_collector_def s i)._parent_index < rank i) :
    (∀ index, ∃ fuel, (fullnameF s fuel index).isSome = true) ∧
    get_collector_fullname brokenS 2 = some "Unknown:C" := by
  have key : ∀ n index, rank index ≤ n →
      ∃ fuel, (fullnameF s fuel index).isSome = true := by
    intro n
    induction n with
    | zero =>
      intro index h
      by_cases hc : has_collector s index = true
      · by_cases hp : (get_collector_def s index)._parent_index = 0
        · exact ⟨1, by rw [fullnameF_succ, if_neg (by simp [hc]), if_pos hp]; rfl⟩
        · exact absurd (hacyc index hc hp) (by omega)
      · refine ⟨1, ?_⟩
        rw [fullnameF_succ, if_pos (by simpa using hc)]
        rfl
    | succ n ih =>
      intro index h
      by_cases hc : has_collector s index = true
      · by_cases hp : (get_collector_def s index)._parent_index = 0
        · exact ⟨1, by rw [fullnameF_succ, if_neg (by simp [hc]), if_pos hp]; rfl⟩
        · obtain ⟨fuel, hf⟩ :=
            ih (get_collector_def s index)._parent_index
              (by have := hacyc index hc hp; omega)
          refine ⟨fuel + 1, ?_⟩
          rw [fullnameF_succ, if_neg (by simp [hc]), if_neg hp]
          simpa using hf
      · refine ⟨1, ?_⟩
        rw [fullnameF_succ, if_pos (by simpa using hc)]
        rfl
  exact ⟨fun index => key (rank index) index (Nat.le_refl _), by decide⟩

/-- Witness for C5: the empty registry is (vacuously) acyclic under the
constant rank, and the fullname recursion terminates at index 7. -/
theorem c5_fullname_terminates_witness :
    (∃ fuel, (fullnameF emptyData fuel 7).isSome = true) ∧
    get_collector_fullname brokenS 2 = some "Unknown:C" := by
  have h := c5_fullname_terminates emptyData (fun _ => 0)
    (by
      intro i hi
      have : collector_slot emptyData i = none := by
        unfold collector_slot
        rw [if_neg]
        rintro ⟨h1, h2⟩
        have hlen : emptyData._collectors.length = 0 := rfl
        rw [hlen] at h2
        omega
      rw [has_collector, this] at hi
      simp at hi)
  exact ⟨h.1 7, h.2⟩

/-- **C7.** `close` is idempotent: a second `close` from any state is a
no-op (the full state, observable flags included, is unchanged), and
starting from a reachable state (the liveness flag tracks reader
possession, as the constructor establishes and `close` preserves) one
`close` leaves the session not alive with the reader released, having
closed the underlying reader exactly once — and never again on later
calls. -/
theorem c7_close_idempotent (s : PStatClientData)
    (hinv : s._is_alive = s._reader.isSome) :
    close (close s) = close s ∧
    (close s)._is_alive = false ∧
    (close s)._reader = none ∧
    (s._is_alive = true → (close s).readerClosed = s.readerClosed + 1) ∧
    (s._is_alive = false → close s = s) ∧
    (close (close s)).readerClosed = (close s).readerClosed := by
  cases ha : s._is_alive with
  | true =>
    have hr : s._reader.isSome = true := by rw [← hinv, ha]
    have h1 : close s =
        { s with _reader := none, _is_alive := false,
                 readerClosed := s.readerClosed + 1 } := by
      rw [close, if_pos ⟨ha, hr⟩]
    have h2 : close (close s) = close s := by
      conv_lhs => rw [close]
      rw [if_neg]
      intro hcontra
      rw [h1] at hcontra
      exact Bool.false_ne_true hcontra.1
    refine ⟨h2, by rw [h1], by rw [h1], fun _ => by rw [h1], ?_, by rw [h2]⟩
    intro hfalse
    exact absurd hfalse (by simp)
  | false =>
    have h1 : close s = s := by
      rw [close, if_neg]
      intro hcontra
      rw [ha] at hcontra
      exact Bool.false_ne_true hcontra.1
    have hr : s._reader = none := by
      cases hrd : s._reader with
      | none => rfl
      | some u =>
        rw [hinv, hrd] at ha
        simp at ha
    refine ⟨by rw [h1, h1], by rw [h1, ha], by rw [h1, hr], ?_, fun _ => h1,
      by rw [h1, h1]⟩
    intro htrue
    exact absurd htrue (by simp)

/-- Witness for C7: closing a freshly constructed session twice — the
second call changes nothing, and the reader is closed exactly once. -/
theorem c7_close_idempotent_witness :
    close (close emptyData) = close emptyData ∧
    (close emptyData)._is_alive = false ∧
    (close emptyData)._reader = none ∧
    (close emptyData).readerClosed = emptyData.readerClosed + 1 ∧
    (close (close emptyData)).readerClosed = (close emptyData).readerClosed := by
  have h := c7_close_idempotent emptyData (by decide)
  exact ⟨h.1, h.2.1, h.2.2.1, h.2.2.2.1 (by decide), h.2.2.2.2.2⟩

/-! ### close touches only the liveness flag and the reader -/

theorem close_collectors (s : PStatClientData) :
    (close s)._collectors = s._collectors := by
  unfold close
  split <;> rfl

theorem close_threads (s : PStatClientData) :
    (close s)._threads = s._threads := by
  unfold close
  split <;> rfl

theorem collector_slot_congr {s t : PStatClientData}
    (h : s._collectors = t._collectors) (i : Int) :
    collector_slot s i = collector_slot t i := by
  unfold collector_slot
  rw [h]

theorem has_collector_congr {s t : PStatClientData}
    (h : s._collectors = t._collectors) (i : Int) :
    has_collector s i = has_collector t i := by
  unfold has_collector
  rw [collector_slot_congr h]

theorem get_collector_def_congr {s t : PStatClientData}
    (h : s._collectors = t._collectors) (i : Int) :
    get_collector_def s i = get_collector_def t i := by
  unfold get_collector_def
  rw [collector_slot_congr h]

theorem fullnameF_congr {s t : PStatClientData}
    (h : s._collectors = t._collectors) :
    ∀ fuel i, fullnameF s fuel i = fullnameF t fuel i := by
  intro fuel
  induction fuel with
  | zero => intro i; rfl
  | succ n ih =>
    intro i
    rw [fullnameF_succ, fullnameF_succ, has_collector_congr h,
      get_collector_def_congr h, ih]

theorem childDistF_congr {s t : PStatClientData}
    (h : s._collectors = t._collectors) :
    ∀ fuel parent child, childDistF s fuel parent child = childDistF t fuel parent child := by
  intro fuel
  induction fuel with
  | zero => intro parent child; rfl
  | succ n ih =>
    intro parent child
    rw [childDistF_succ, childDistF_succ, has_collector_congr h,
      get_collector_def_congr h, ih]

theorem thread_slot_congr {s t : PStatClientData}
    (h : s._threads = t._threads) (i : Int) :
    thread_slot s i = thread_slot t i := by
  unfold thread_slot
  rw [h]

theorem has_thread_congr {s t : PStatClientData}
    (h : s._threads = t._threads) (i : Int) :
    has_thread s i = has_thread t i := by
  unfold has_thread
  rw [h]

theorem get_thread_name_congr {s t : PStatClientData}
    (h : s._threads = t._threads) (i : Int) :
    get_thread_name s i = get_thread_name t i := by
  unfold get_thread_name
  rw [h, has_thread_congr h]

/-- **C8 (amended).** `close` modifies only the liveness flag and the
reader handle: the Collector Registry and the Thread Table are
unchanged and every read operation returns the same result as before
the close. -/
theorem c8_close_preserves_reads (s : PStatClientData) :
    (close s)._collectors = s._collectors ∧
    (close s)._threads = s._threads ∧
    (∀ i, has_collector (close s) i = has_collector s i) ∧
    (∀ i, get_collector_def (close s) i = get_collector_def s i) ∧
    (∀ i, get_collector_name (close s) i = get_collector_name s i) ∧
    (∀ i, get_collector_fullname (close s) i = get_collector_fullname s i) ∧
    (∀ i, has_thread (close s) i = has_thread s i) ∧
    (∀ i, get_thread_name (close s) i = get_thread_name s i) ∧
    (∀ parent child, get_child_distance (close s) parent child =
      get_child_distance s parent child) := by
  have hc := close_collectors s
  have ht := close_threads s
  refine ⟨hc, ht, has_collector_congr hc, get_collector_def_congr hc, ?_, ?_,
    has_thread_congr ht, get_thread_name_congr ht, ?_⟩
  · intro i
    unfold get_collector_name
    rw [has_collector_congr hc, get_collector_def_congr hc]
  · intro i
    unfold get_collector_fullname
    rw [hc, fullnameF_congr hc]
  · intro parent child
    unfold get_child_distance
    rw [hc, childDistF_congr hc]

/-- The session obtained by closing a freshly constructed one. -/
def closedSession : PStatClientData := close emptyData

/-- The closed session after a collector mutation went through. -/
def mutatedClosed : PStatClientData :=
  { closedSession with
      _collectors := [some { _index := 0, _name := "Frame", _parent_index := 0 }] }

/-- **C8 counterexample.** "No further mutation is accepted after the
session is closed" fails on the code: `add_collector` performs no
liveness check, so a closed session (here: a fresh session after
`close`) accepts the mutation and its registry changes. -/
theorem c8_mutation_after_close_counterexample :
    is_alive closedSession = false ∧
    add_collector closedSession
        { _index := 0, _name := "Frame", _parent_index := 0 } = .ok mutatedClosed ∧
    has_collector closedSession 0 = false ∧
    has_collector mutatedClosed 0 = true := by decide

/-- **C1 (code bug).** The sanity check in `add_collector` is only
`def->_index < 1000`: an id ≥ 1000 is indeed rejected with the table
unchanged and an id in [0, 999] is stored (growing the table), but a
NEGATIVE id passes the check — instead of the `ValidationError` the
spec requires, the grow loop compares `_collectors.size()` against the
huge `size_t` conversion of the negative index and never terminates. -/
theorem c1_add_collector_negative_id_unchecked :
    add_collector emptyData { _index := -1, _name := "Neg", _parent_index := 0 } =
      .ub ∧
    (({ _index := -1, _name := "Neg", _parent_index := 0 } :
        PStatCollectorDef)._index < 1000) ∧
    add_collector emptyData { _index := 1000, _name := "Big", _parent_index := 0 } =
      .rejected emptyData ∧
    add_collector emptyData { _index := 2, _name := "X", _parent_index := 0 } =
      .ok { emptyData with
              _collectors := [none, none,
                some { _index := 2, _name := "X", _parent_index := 0 }] } := by decide

/-! ### define_thread: ok-path characterization -/

theorem thread_slot_nonneg (s : PStatClientData) (id : Int) (h0 : 0 ≤ id) :
    thread_slot s id = nthD s._threads id.toNat { _name := "", _data := none } := by
  unfold thread_slot
  by_cases hin : id < (s._threads.length : Int)
  · rw [if_pos ⟨h0, hin⟩]
  · rw [if_neg (fun hc => hin hc.2)]
    symm
    apply nthD_ge
    omega

theorem has_thread_eq (s : PStatClientData) (id : Int) :
    has_thread s id = !(thread_slot s id)._name.isEmpty := by
  unfold has_thread thread_slot
  by_cases hin : 0 ≤ id ∧ id < (s._threads.length : Int)
  · rw [if_pos hin, if_pos hin]
  · rw [if_neg hin, if_neg hin]
    rfl

theorem get_thread_name_eq (s : PStatClientData) (id : Int) :
    get_thread_name s id =
      if (thread_slot s id)._name.isEmpty then "Unknown"
      else (thread_slot s id)._name := by
  unfold get_thread_name
  rw [has_thread_eq]
  by_cases hin : 0 ≤ id ∧ id < (s._threads.length : Int)
  · have hslot : thread_slot s id =
        nthD s._threads id.toNat { _name := "", _data := none } := by
      unfold thread_slot
      rw [if_pos hin]
    rw [hslot]
    cases hny : (nthD s._threads id.toNat
        { _name := "", _data := none })._name.isEmpty <;> simp [hny]
  · have hslot : thread_slot s id = { _name := "", _data := none } := by
      unfold thread_slot
      rw [if_neg hin]
    rw [hslot]
    have hemp : ("" : String).isEmpty = true := rfl
    simp [hemp]

theorem define_thread_ok_inv {s s1 : PStatClientData} {id : Int} {name : String}
    (h : define_thread s id name = .ok s1) : 0 ≤ id ∧ id < 1000 := by
  by_cases h1 : id < 1000
  · by_cases h0 : id < 0
    · exfalso
      unfold define_thread at h
      rw [if_neg (by omega), if_pos h0] at h
      exact MutResult.noConfusion h
    · exact ⟨by omega, h1⟩
  · exfalso
    unfold define_thread at h
    rw [if_pos h1] at h
    exact MutResult.noConfusion h

theorem define_thread_ok_spec {s s1 : PStatClientData} {id : Int} {name : String}
    (h : define_thread s id name = .ok s1) :
    0 ≤ id ∧ id < (s1._threads.length : Int) ∧
    (thread_slot s1 id)._name =
      (if name.isEmpty then (thread_slot s id)._name else name) ∧
    (thread_slot s1 id)._data =
      some ((thread_slot s id)._data.getD s.nextData) ∧
    s1._collectors = s._collectors ∧
    s1._is_alive = s._is_alive := by
  obtain ⟨h0, h1⟩ := define_thread_ok_inv h
  unfold define_thread at h
  rw [if_neg (by omega), if_neg (by omega)] at h
  dsimp only at h
  have ht0 : nthD (growTo s._threads id.toNat { _name := "", _data := none })
      id.toNat { _name := "", _data := none } = thread_slot s id := by
    rw [nthD_growTo_self, thread_slot_nonneg s id h0]
    by_cases hin : id.toNat < s._threads.length
    · rw [if_pos hin]
    · rw [if_neg hin, nthD_ge _ _ _ (by omega)]
  rw [ht0] at h
  have hglen : id.toNat <
      (growTo s._threads id.toNat { _name := "", _data := none }).length :=
    lt_length_growTo _ _ _
  split at h
  case isTrue hemp =>
    split at h
    case isTrue hdata =>
      injection h with h2
      subst h2
      refine ⟨h0, ?_, ?_, ?_, rfl, rfl⟩
      · simp only [List.length_set, length_growTo]
        omega
      · rw [thread_slot_nonneg _ id h0]
        dsimp only
        rw [nthD_set_self _ _ _ _ hglen]
        rw [if_pos hemp]
      · rw [thread_slot_nonneg _ id h0]
        dsimp only
        rw [nthD_set_self _ _ _ _ hglen]
        dsimp only
        rw [hdata]
        rfl
    case isFalse hdata =>
      injection h with h2
      subst h2
      refine ⟨h0, ?_, ?_, ?_, rfl, rfl⟩
      · simp only [List.length_set, length_growTo]
        omega
      · rw [thread_slot_nonneg _ id h0]
        dsimp only
        rw [nthD_set_self _ _ _ _ hglen]
        rw [if_pos hemp]
      · rw [thread_slot_nonneg _ id h0]
        dsimp only
        rw [nthD_set_self _ _ _ _ hglen]
        cases hd : (thread_slot s id)._data with
        | none => exact absurd hd hdata
        | some k => rfl
  case isFalse hemp =>
    dsimp only at h
    split at h
    case isTrue hdata =>
      injection h with h2
      subst h2
      refine ⟨h0, ?_, ?_, ?_, rfl, rfl⟩
      · simp only [List.length_set, length_growTo]
        omega
      · rw [thread_slot_nonneg _ id h0]
        dsimp only
        rw [nthD_set_self _ _ _ _ hglen]
        rw [if_neg hemp]
      · rw [thread_slot_nonneg _ id h0]
        dsimp only
        rw [nthD_set_self _ _ _ _ hglen]
        dsimp only
        rw [hdata]
        rfl
    case isFalse hdata =>
      injection h with h2
      subst h2
      refine ⟨h0, ?_, ?_, ?_, rfl, rfl⟩
      · simp only [List.length_set, length_growTo]
        omega
      · rw [thread_slot_nonneg _ id h0]
        dsimp only
        rw [nthD_set_self _ _ _ _ hglen]
        rw [if_neg hemp]
      · rw [thread_slot_nonneg _ id h0]
        dsimp only
        rw [nthD_set_self _ _ _ _ hglen]
        dsimp only
        cases hd : (thread_slot s id)._data with
        | none => exact absurd hd hdata
        | some k => rfl

/-- The state after `define_thread(0, "")` on a fresh session: slot 0
materialized with an empty name and a freshly allocated store. -/
def thA : PStatClientData :=
  { emptyData with _threads := [{ _name := "", _data := some 0 }], nextData := 1 }

/-- `thA` after `define_thread(0, "Render")`: the name back-filled, the
store reused. -/
def thB : PStatClientData :=
  { emptyData with _threads := [{ _name := "Render", _data := some 0 }], nextData := 1 }

/-- **C6.** On every successful `define_thread` call a non-empty name
overwrites the stored name, an empty name leaves it unchanged, and the
Frame Store is created on the first call for the id (receiving the next
fresh allocation) and reused — kept identical — thereafter; concretely,
defining thread 0 with "" then "Render" then "" ends with name "Render"
and the store allocated by the first call. -/
theorem c6_define_thread_backfill (s s1 : PStatClientData) (id : Int)
    (name : String) (h : define_thread s id name = .ok s1) :
    (0 ≤ id ∧ id < (s1._threads.length : Int)) ∧
    (name ≠ "" → (thread_slot s1 id)._name = name) ∧
    (name = "" → (thread_slot s1 id)._name = (thread_slot s id)._name) ∧
    ((thread_slot s id)._data = none →
      (thread_slot s1 id)._data = some s.nextData) ∧
    (∀ k, (thread_slot s id)._data = some k →
      (thread_slot s1 id)._data = some k) ∧
    define_thread emptyData 0 "" = .ok thA ∧
    define_thread thA 0 "Render" = .ok thB ∧
    get_thread_name thB 0 = "Render" ∧
    define_thread thB 0 "" = .ok thB ∧
    (thread_slot thB 0)._data = (thread_slot thA 0)._data := by
  obtain ⟨h0, hlen, hname, hdata, -, -⟩ := define_thread_ok_spec h
  refine ⟨⟨h0, hlen⟩, ?_, ?_, ?_, ?_,
    by decide, by decide, by decide, by decide, by decide⟩
  · intro hne
    rw [hname, if_neg (by simp [String.isEmpty_iff, hne])]
  · intro he
    rw [hname, if_pos (by subst he; rfl)]
  · intro hd
    rw [hdata, hd]
    rfl
  · intro k hk
    rw [hdata, hk]
    rfl

/-- Witness for C6: defining thread 0 with the non-empty name "Render"
on a fresh session stores that name and allocates store 0. -/
theorem c6_define_thread_backfill_witness :
    (thread_slot thB 0)._name = "Render" ∧
    (thread_slot thB 0)._data = some emptyData.nextData := by
  have h := c6_define_thread_backfill emptyData thB 0 "Render" (by decide)
  exact ⟨h.2.1 (by decide), h.2.2.2.1 (by decide)⟩

/-- `define_thread` returns `rejected` exactly on the failed sanity
check, with the carried state untouched. -/
theorem define_thread_rejected_inv {s s2 : PStatClientData} {id : Int}
    {name : String} (h : define_thread s id name = .rejected s2) :
    ¬ id < 1000 ∧ s2 = s := by
  unfold define_thread at h
  by_cases h1 : id < 1000
  · rw [if_neg (by omega)] at h
    by_cases h0 : id < 0
    · rw [if_pos h0] at h
      exact MutResult.noConfusion h
    · rw [if_neg h0] at h
      dsimp only at h
      split at h <;> (split at h <;> exact MutResult.noConfusion h)
  · rw [if_pos h1] at h
    injection h with h2
    exact ⟨h1, h2.symm⟩

/-- **C10.** A thread id materialized without a non-empty name — by
`define_thread(id, "")`, by `get_thread_data(id)` or by
`record_new_frame` for that id — still has `has_thread(id) = false`
and `get_thread_name(id) = "Unknown"`, even though the slot and its
Frame Store now exist; `has_thread` is true exactly when a non-empty
name has been stored. -/
theorem c10_unnamed_thread_materialization (s : PStatClientData) (id : Int)
    (hname : (thread_slot s id)._name = "") :
    (∀ s1, define_thread s id "" = .ok s1 →
      has_thread s1 id = false ∧ get_thread_name s1 id = "Unknown" ∧
      id < (s1._threads.length : Int) ∧ (thread_slot s1 id)._data.isSome = true) ∧
    (∀ s1 d, get_thread_data s id = some (s1, d) →
      has_thread s1 id = false ∧ get_thread_name s1 id = "Unknown" ∧
      (0 ≤ id → id < 1000 → d.isSome = true)) ∧
    (∀ s1 fn, record_new_frame s id fn = some s1 →
      has_thread s1 id = false ∧ get_thread_name s1 id = "Unknown") ∧
    (∀ t : PStatClientData, ∀ j : Int,
      has_thread t j = true ↔ (thread_slot t j)._name ≠ "") := by
  have hiff : ∀ t : PStatClientData, ∀ j : Int,
      has_thread t j = true ↔ (thread_slot t j)._name ≠ "" := by
    intro t j
    rw [has_thread_eq]
    constructor
    · intro hT hEq
      rw [hEq] at hT
      exact absurd hT (by decide)
    · intro hne
      cases hx : (thread_slot t j)._name.isEmpty
      · rfl
      · exact absurd ((String.isEmpty_iff _).mp hx) hne
  have hself : has_thread s id = false ∧ get_thread_name s id = "Unknown" := by
    constructor
    · rw [has_thread_eq, hname]
      rfl
    · rw [get_thread_name_eq, hname]
      rfl
  have hok : ∀ s1, define_thread s id "" = .ok s1 →
      has_thread s1 id = false ∧ get_thread_name s1 id = "Unknown" ∧
      id < (s1._threads.length : Int) ∧
      (thread_slot s1 id)._data.isSome = true := by
    intro s1 h
    obtain ⟨h0, hlen, hnm, hdt, -, -⟩ := define_thread_ok_spec h
    have hnm1 : (thread_slot s1 id)._name = "" := by
      have hemp : ("" : String).isEmpty = true := rfl
      rw [hnm, if_pos hemp, hname]
    refine ⟨?_, ?_, hlen, ?_⟩
    · rw [has_thread_eq, hnm1]
      rfl
    · rw [get_thread_name_eq, hnm1]
      rfl
    · rw [hdt]
      rfl
  refine ⟨hok, ?_, ?_, hiff⟩
  · intro s1 d h
    unfold get_thread_data at h
    cases hdt : define_thread s id "" with
    | ok s2 =>
      rw [hdt] at h
      obtain ⟨hhas, hunk, hlen, hsome⟩ := hok s2 hdt
      obtain ⟨h0, -, -, -, -, -⟩ := define_thread_ok_spec hdt
      dsimp only at h
      rw [if_pos ⟨h0, hlen⟩] at h
      injection h with h2
      rw [Prod.mk.injEq] at h2
      obtain ⟨hs, hd⟩ := h2
      subst hs
      rw [thread_slot_nonneg s2 id h0] at hsome
      rw [hd] at hsome
      exact ⟨hhas, hunk, fun _ _ => hsome⟩
    | rejected s2 =>
      rw [hdt] at h
      dsimp only at h
      injection h with h2
      rw [Prod.mk.injEq] at h2
      obtain ⟨hs, hd⟩ := h2
      subst hs
      obtain ⟨hbig, hs2⟩ := define_thread_rejected_inv hdt
      rw [hs2]
      exact ⟨hself.1, hself.2, fun _ hlt => absurd hlt hbig⟩
    | ub =>
      rw [hdt] at h
      exact Option.noConfusion h
  · intro s1 fn h
    unfold record_new_frame at h
    cases hdt : define_thread s id "" with
    | ok s2 =>
      rw [hdt] at h
      injection h with h2
      obtain ⟨hhas, hunk, -, -⟩ := hok s2 hdt
      rw [h2] at hhas hunk
      exact ⟨hhas, hunk⟩
    | rejected s2 =>
      rw [hdt] at h
      injection h with h2
      obtain ⟨-, hs2⟩ := define_thread_rejected_inv hdt
      rw [← h2, hs2]
      exact hself
    | ub =>
      rw [hdt] at h
      exact Option.noConfusion h

/-- Witness for C10: thread 0 of a fresh session materialized by
`define_thread(0, "")` — slot and store exist, yet `has_thread` is
false and the name reads "Unknown". -/
theorem c10_unnamed_thread_materialization_witness :
    has_thread thA 0 = false ∧ get_thread_name thA 0 = "Unknown" ∧
    (0 : Int) < (thA._threads.length : Int) ∧
    (thread_slot thA 0)._data.isSome = true := by
  have h := c10_unnamed_thread_materialization emptyData 0 (by decide)
  exact h.1 thA (by decide)

/-- Modelled from the spec: `PStatThreadData::get_frame_rate`, whose
implementation is missing from src/ (pStatThreadData.h line 50 only
declares it).  Per the spec, the qualifying frames are the retained
(non-hole) frames whose timestamp lies within `window` seconds of
`latest_time()`, and the result is `(count_of_qualifying_frames - 1) /
(latest_timestamp_in_window - earliest_timestamp_in_window)`, with 0
returned when fewer than two frames qualify or the span is zero.  A
Frame Store is modelled as its list of optional frame timestamps
(`none` = hole); C++ `double` timestamps are modelled as rationals. -/
def get_frame_rate (frames : List (Option ℚ)) (window : ℚ) : ℚ :=
  match (frames.filterMap id).getLast? with
  | none => 0
  | some latest =>
    match (frames.filterMap id).filter (fun t => latest - t ≤ window) with
    | [] => 0
    | q :: qs =>
      if (q :: qs).length < 2 ∨ qs.foldl max q - qs.foldl min q = 0 then 0
      else (((q :: qs).length : ℚ) - 1) / (qs.foldl max q - qs.foldl min q)

/-- **C9.** `get_frame_rate(w)` equals (count − 1) / (latest − earliest)
over the qualifying frames (retained timestamps within `w` of the
latest one) when at least two qualify with a non-zero span, and 0
otherwise; over 4 frames at timestamps 0, 0.5, 1.0, 1.5 with w = 3.0
it returns 2.0, and with fewer than two retained frames it returns
0. -/
theorem c9_frame_rate (frames : List (Option ℚ)) (window latest : ℚ)
    (q : ℚ) (qs : List ℚ)
    (hl : (frames.filterMap id).getLast? = some latest)
    (hq : (frames.filterMap id).filter (fun t => latest - t ≤ window) = q :: qs) :
    (2 ≤ (q :: qs).length → qs.foldl max q - qs.foldl min q ≠ 0 →
      get_frame_rate frames window =
        (((q :: qs).length : ℚ) - 1) / (qs.foldl max q - qs.foldl min q)) ∧
    ((q :: qs).length < 2 ∨ qs.foldl max q - qs.foldl min q = 0 →
      get_frame_rate frames window = 0) ∧
    get_frame_rate [some 0, some (1/2), some 1, some (3/2)] 3 = 2 ∧
    get_frame_rate [] 3 = 0 ∧
    get_frame_rate [some 0] 3 = 0 := by
  have hrw : get_frame_rate frames window =
      (if (q :: qs).length < 2 ∨ qs.foldl max q - qs.foldl min q = 0 then 0
       else (((q :: qs).length : ℚ) - 1) / (qs.foldl max q - qs.foldl min q)) := by
    unfold get_frame_rate
    simp only [hl]
    simp only [hq]
  refine ⟨?_, ?_,
    by norm_num [get_frame_rate, List.filterMap, List.filter, List.foldl],
    by rfl,
    by norm_num [get_frame_rate, List.filterMap, List.filter, List.foldl]⟩
  · intro h2 hspan
    rw [hrw, if_neg ?_]
    rintro (hlt | hz)
    · omega
    · exact hspan hz
  · intro hcase
    rw [hrw, if_pos hcase]

/-- Witness for C9: the 4-frame example instantiates the general
formula — 0, 0.5, 1.0, 1.5 within window 3 give (4 − 1)/(1.5 − 0) =
2. -/
theorem c9_frame_rate_witness :
    get_frame_rate [some 0, some (1/2), some 1, some (3/2)] 3 = 2 := by
  have h := c9_frame_rate [some 0, some (1/2), some 1, some (3/2)] 3 (3/2) 0
    [1/2, 1, 3/2] (by rfl) (by norm_num [List.filterMap, List.filter])
  rw [h.1 (by norm_num) (by norm_num [List.foldl])]
  norm_num [List.foldl]
